import Mathlib

/-!
Shallow embedding of the Cura USB-printing subsystem:
`cura/PrinterOutputDevice.py` and
`plugins/USBPrinting/USBPrinterOutputDeviceManager.py`.

Python dictionaries are embedded as association lists (or key lists when
only the keys matter), Python numeric values as `Rat`/`Int`, exceptions as
`Except Unit`, and Qt signal emissions / external registry calls as event
lists so that "exactly one notification" claims become statements about
list lengths and membership.
-/

deriving instance DecidableEq for Except

namespace Cura

/-- The `ConnectionState` enumeration of `PrinterOutputDevice.py`
(closed, connecting, connected, busy, error). -/
inductive ConnectionState where
  | closed
  | connecting
  | connected
  | busy
  | error
deriving DecidableEq, Repr

/-! ## Manager-level progress aggregation

`USBPrinterOutputDeviceManager.progress` sums `device.progress` over
`self._usb_output_devices` and divides by `len(self._usb_output_devices)`.
A Python `ZeroDivisionError` (raised when the device dict is empty) is
embedded as `Except.error ()`. -/

/-- Embedding of `USBPrinterOutputDeviceManager.progress`: the argument is
the list of `device.progress` values of the tracked devices, in iteration
order. The code computes `progress = 0`, adds each device's progress, then
returns `progress / len(self._usb_output_devices)`; the division raises
`ZeroDivisionError` when no devices are tracked. -/
def managerProgress (device_progresses : List ℚ) : Except Unit ℚ :=
  let progress : ℚ := device_progresses.foldl (fun acc p => acc + p) 0
  if device_progresses.length = 0 then
    Except.error ()
  else
    Except.ok (progress / (device_progresses.length : ℚ))

/-! ## Firmware name resolution

`USBPrinterOutputDeviceManager._getDefaultFirmwareName` chooses a baud rate
from `platform.system()`, looks the active machine id up in two static
tables, substitutes the baud rate into the `{baudrate}` placeholder, and
raises `FileNotFoundError` when no table entry exists. -/

/-- The `machine_without_extras` table of `_getDefaultFirmwareName`. -/
def machine_without_extras : List (String × String) :=
  [("bq_witbox", "MarlinWitbox.hex"),
   ("bq_hephestos_2", "MarlinHephestos2.hex"),
   ("ultimaker_original", "MarlinUltimaker-{baudrate}.hex"),
   ("ultimaker_original_plus", "MarlinUltimaker-UMOP-{baudrate}.hex"),
   ("ultimaker2", "MarlinUltimaker2.hex"),
   ("ultimaker2_go", "MarlinUltimaker2go.hex"),
   ("ultimaker2plus", "MarlinUltimaker2plus.hex"),
   ("ultimaker2_extended", "MarlinUltimaker2extended.hex"),
   ("ultimaker2_extended_plus", "MarlinUltimaker2extended-plus.hex")]

/-- The `machine_with_heated_bed` table of `_getDefaultFirmwareName`. -/
def machine_with_heated_bed : List (String × String) :=
  [("ultimaker_original", "MarlinUltimaker-HBK-{baudrate}.hex")]

/-- Replacement of every occurrence of the ten-character `{baudrate}`
placeholder in a character list by the replacement `baud`. -/
def replaceBaudratePlaceholder (baud : List Char) : List Char → List Char
  | '{' :: 'b' :: 'a' :: 'u' :: 'd' :: 'r' :: 'a' :: 't' :: 'e' :: '}' :: rest =>
      baud ++ replaceBaudratePlaceholder baud rest
  | c :: rest => c :: replaceBaudratePlaceholder baud rest
  | [] => []

/-- Embedding of Python `hex_file.format(baudrate=baudrate)`: every
occurrence of the `{baudrate}` placeholder is replaced by the decimal
rendering of the baud rate. -/
def formatBaudrate (hex_file : String) (baudrate : Nat) : String :=
  ⟨replaceBaudratePlaceholder (toString baudrate).data hex_file.data⟩

/-- Embedding of `USBPrinterOutputDeviceManager._getDefaultFirmwareName`.
Arguments stand for the external reads: the active machine instance's
definition id, its `machine_heated_bed` setting (Python truthiness), and
`platform.system()`. `Except.error ()` embeds the raised
`FileNotFoundError`. The Python `if hex_file:` truthiness test is kept:
an empty-string entry would also fall through to the raise. -/
def getDefaultFirmwareName (machine_type : String) (machine_heated_bed : Bool)
    (platform_system : String) : Except Unit String :=
  let baudrate : Nat := if platform_system = "Linux" then 115200 else 250000
  let hex_file : Option String :=
    if (machine_without_extras.lookup machine_type).isSome then
      if (machine_with_heated_bed.lookup machine_type).isSome ∧ machine_heated_bed then
        machine_with_heated_bed.lookup machine_type
      else
        machine_without_extras.lookup machine_type
    else
      none
  match hex_file with
  | some f => if f ≠ "" then Except.ok (formatBaudrate f baudrate) else Except.error ()
  | none => Except.error ()

/-! ## Firmware batch orchestration

`updateAllFirmware` and `updateFirmwareBySerial` are embedded as
event-trace producers. The per-device `try` body (the
`Resources.getPath(..., self._getDefaultFirmwareName())` call followed by
`device.updateFirmware(path)`) is abstracted as a function
`tryBody : String → Except Unit String` from the device's port to either
the resolved firmware path or a raised `FileNotFoundError`; the concrete
instantiation `flashAttempt` below performs the real name resolution and
lets an external `firmwareFileExists` oracle stand for the file system. -/

/-- Observable side effects of the firmware-update entry points:
a user-visible `Message(...)` being shown, the firmware progress window
being spawned or closed, a device's `updateFirmware(path)` being reached,
and a device's `setProgress(100, 100)` terminal-failure marking. -/
inductive FirmwareEvent where
  | message (text : String)
  | spawnInterface (port : String)
  | closeInterface
  | updateFirmware (port : String) (path : String)
  | setProgressTerminal (port : String)
deriving DecidableEq, Repr

/-- The body of the per-device `try` in the firmware-update methods:
resolve the firmware name via `_getDefaultFirmwareName` (which may raise
`FileNotFoundError`), then look the file up through `Resources.getPath`,
which raises `FileNotFoundError` when the resolved image file is absent
(the `firmwareFileExists` oracle embeds the file system). -/
def flashAttempt (machine_type : String) (machine_heated_bed : Bool)
    (platform_system : String) (firmwareFileExists : String → Bool) :
    Except Unit String :=
  match getDefaultFirmwareName machine_type machine_heated_bed platform_system with
  | Except.error _ => Except.error ()
  | Except.ok name =>
      if firmwareFileExists name then Except.ok name else Except.error ()

/-- Embedding of `USBPrinterOutputDeviceManager.updateAllFirmware` as the
list of events it produces. `device_ports` is the key list of
`self._usb_output_devices` in iteration order. With no devices a
user-visible message is shown and nothing else happens; otherwise the
firmware interface is spawned once and every device is attempted, a
`FileNotFoundError` from one attempt being caught per device
(`setProgress(100, 100)`, log, `continue`). -/
def updateAllFirmware (device_ports : List String)
    (tryBody : String → Except Unit String) : List FirmwareEvent :=
  if device_ports.isEmpty then
    [FirmwareEvent.message "Cannot update firmware, there were no connected printers found."]
  else
    FirmwareEvent.spawnInterface "" ::
      device_ports.flatMap (fun port =>
        match tryBody port with
        | Except.ok path => [FirmwareEvent.updateFirmware port path]
        | Except.error _ => [FirmwareEvent.setProgressTerminal port])

/-- Embedding of `USBPrinterOutputDeviceManager.updateFirmwareBySerial`:
returns the Boolean result together with the event trace. For a tracked
port the interface is spawned and the flash attempted, a
`FileNotFoundError` closing the interface and returning `False`; for an
unknown port the method returns `False` immediately. -/
def updateFirmwareBySerial (device_ports : List String)
    (tryBody : String → Except Unit String) (serial_port : String) :
    Bool × List FirmwareEvent :=
  if serial_port ∈ device_ports then
    match tryBody serial_port with
    | Except.ok path =>
        (true, [FirmwareEvent.spawnInterface serial_port,
                FirmwareEvent.updateFirmware serial_port path])
    | Except.error _ =>
        (false, [FirmwareEvent.spawnInterface serial_port,
                 FirmwareEvent.closeInterface])
  else
    (false, [])

/-! ## Connection-state reports and the global output-device registry

`PrinterOutputDevice.setConnectionState` stores the new state and emits
`connectionStateChanged(self._id)` unconditionally; the manager's
`_onConnectionStateChanged(serial_port)` then calls
`getOutputDeviceManager().addOutputDevice(...)` when the device's state is
`connected` and `removeOutputDevice(serial_port)` otherwise, with a
`KeyError` (unknown port) silently ignored. Registry calls are embedded
as `RegistryAction` events. -/

/-- A call into the global active-output-device registry. -/
inductive RegistryAction where
  | publish (port : String)
  | unpublish (port : String)
deriving DecidableEq, Repr

/-- The tracked devices for connection-state purposes: an association list
from serial port to the device's `_connection_state`. -/
abbrev ConnDevices := List (String × ConnectionState)

/-- Python dict lookup `self._usb_output_devices[serial_port]` on the
association list: the first pair with a matching key, `none` standing for
the raised `KeyError`. -/
def lookupState : ConnDevices → String → Option ConnectionState
  | [], _ => none
  | d :: rest, q => if d.1 = q then some d.2 else lookupState rest q

/-- Delivery of one connection-state report: `setConnectionState` on the
device at `port` (unconditional store, unconditional signal emission),
followed by the manager's `_onConnectionStateChanged` handler. Returns the
updated device map and the registry calls made (empty on `KeyError`). -/
def deliverConnectionReport (devs : ConnDevices) (port : String)
    (state : ConnectionState) : ConnDevices × List RegistryAction :=
  let devs' := devs.map (fun d => if d.1 = port then (d.1, state) else d)
  match lookupState devs' port with
  | some s =>
      if s = ConnectionState.connected then
        (devs', [RegistryAction.publish port])
      else
        (devs', [RegistryAction.unpublish port])
  | none => (devs', [])

/-- Delivery of a whole sequence of connection-state reports, accumulating
the registry calls in order. -/
def deliverConnectionReports (devs : ConnDevices)
    (reports : List (String × ConnectionState)) :
    ConnDevices × List RegistryAction :=
  match reports with
  | [] => (devs, [])
  | r :: rest =>
      let step := deliverConnectionReport devs r.1 r.2
      let next := deliverConnectionReports step.1 rest
      (next.1, step.2 ++ next.2)

/-! ## Discovery scan cycles

`_addRemovePorts(serial_ports)` adds a device for every scanned port not
in `self._serial_port_list` (via the `addUSBOutputDeviceSignal` hand-off
to `addOutputDevice`, embedded synchronously), replaces
`self._serial_port_list` wholesale, and then closes and deletes every
tracked device whose port is no longer listed. Only the key set of
`self._usb_output_devices` matters to the claims, so the dict is embedded
as its key list in insertion order. -/

/-- Key effect of `self._usb_output_devices[serial_port] = device` in
`addOutputDevice`: an existing key keeps its position (its value is
overwritten), a new key is appended. -/
def dictInsertKey (keys : List String) (k : String) : List String :=
  if k ∈ keys then keys else keys ++ [k]

/-- The manager state touched by a scan cycle: `_serial_port_list` and the
key list of `_usb_output_devices`. -/
structure ManagerPortState where
  serial_port_list : List String
  device_ports : List String
deriving DecidableEq, Repr

/-- Embedding of one `_addRemovePorts(serial_ports)` cycle with the
`addOutputDevice` hand-off performed synchronously: first every scanned
port absent from the old `_serial_port_list` gets a device, then the port
list is replaced by the scan, then devices on unlisted ports are removed. -/
def addRemovePorts (s : ManagerPortState) (serial_ports : List String) :
    ManagerPortState :=
  let after_add := serial_ports.foldl
    (fun devs p => if p ∈ s.serial_port_list then devs else dictInsertKey devs p)
    s.device_ports
  { serial_port_list := serial_ports
    device_ports := after_add.filter (fun p => p ∈ serial_ports) }

/-- The manager's initial state: no known ports, no devices. -/
def initialManagerPortState : ManagerPortState := ⟨[], []⟩

/-! ## Head position updates and absolute positioning hooks -/

/-- The `_head_x`, `_head_y`, `_head_z` fields of `PrinterOutputDevice`. -/
structure HeadPosition where
  head_x : ℚ
  head_y : ℚ
  head_z : ℚ
deriving DecidableEq, Repr

/-- Embedding of `PrinterOutputDevice._updateHeadPosition(x, y, z)`:
axis-by-axis comparison with a shared `position_changed` flag, then at most
one `headPositionChanged` emission. Returns the new position and the
number of emissions. -/
def updateHeadPosition (s : HeadPosition) (x y z : ℚ) : HeadPosition × Nat :=
  let px := if s.head_x ≠ x then (x, true) else (s.head_x, false)
  let py := if s.head_y ≠ y then (y, true) else (s.head_y, px.2)
  let pz := if s.head_z ≠ z then (z, true) else (s.head_z, py.2)
  (⟨px.1, py.1, pz.1⟩, if pz.2 then 1 else 0)

/-- An invocation of one of the motion implementation hooks of
`PrinterOutputDevice`. -/
inductive HeadHookCall where
  | hookSetHeadX (pos : ℚ) (speed : ℚ)
  | hookSetHeadY (pos : ℚ) (speed : ℚ)
  | hookSetHeadZ (pos : ℚ) (speed : ℚ)
deriving DecidableEq, Repr

/-- Embedding of `PrinterOutputDevice.setHeadX(x, speed)`: the body is
`self._setHeadX(x, speed)`. -/
def setHeadX (x : ℚ) (speed : ℚ) : HeadHookCall := HeadHookCall.hookSetHeadX x speed

/-- Embedding of `PrinterOutputDevice.setHeadY(y, speed)`: the body is
`self._setHeadY(y, speed)`. -/
def setHeadY (y : ℚ) (speed : ℚ) : HeadHookCall := HeadHookCall.hookSetHeadY y speed

/-- Embedding of `PrinterOutputDevice.setHeadZ(z, speed)`: the body as
written at line 251 of `PrinterOutputDevice.py` is
`self._setHeadY(z, speed)`. -/
def setHeadZ (z : ℚ) (speed : ℚ) : HeadHookCall := HeadHookCall.hookSetHeadY z speed

/-! ## Target hotend temperature -/

/-- Python list assignment `l[i] = v` on a list of Python ints: a negative
index counts from the end; an index outside `-len ≤ i < len` raises
`IndexError`, embedded as `Except.error ()`. -/
def pyListSet (l : List ℤ) (i : ℤ) (v : ℤ) : Except Unit (List ℤ) :=
  let idx : ℤ := if i < 0 then (l.length : ℤ) + i else i
  if 0 ≤ idx ∧ idx < (l.length : ℤ) then
    Except.ok (l.set idx.toNat v)
  else
    Except.error ()

/-- Outcome of a `setTargetHotendTemperature` call: whether the
`_setTargetHotendTemperature` hook ran, the final
`_target_hotend_temperatures` list, the number of
`targetHotendTemperaturesChanged` emissions, and whether an `IndexError`
propagated to the caller. -/
structure HotendSetResult where
  hook_called : Bool
  target_hotend_temperatures : List ℤ
  emit_count : Nat
  raised_index_error : Bool
deriving DecidableEq, Repr

/-- Embedding of `PrinterOutputDevice.setTargetHotendTemperature(index,
temperature)`: the implementation hook is invoked first, then
`self._target_hotend_temperatures[index] = temperature` (which may raise
`IndexError`, aborting before the signal emission), then exactly one
`targetHotendTemperaturesChanged` emission. -/
def setTargetHotendTemperature (temps : List ℤ) (index : ℤ)
    (temperature : ℤ) : HotendSetResult :=
  match pyListSet temps index temperature with
  | Except.ok new_temps => ⟨true, new_temps, 1, false⟩
  | Except.error _ => ⟨true, temps, 0, true⟩

/-! ## Helper lemmas -/

/-- Left fold of addition over rationals, in terms of `List.sum`. -/
lemma foldl_add_eq_add_sum (l : List ℚ) (a : ℚ) :
    l.foldl (fun acc p => acc + p) a = a + l.sum := by
  induction l generalizing a with
  | nil => simp
  | cons p rest ih => simp [ih, add_assoc]

/-- A sample `tryBody` in which every flash attempt raises
`FileNotFoundError`. -/
def alwaysMissingFirmware : String → Except Unit String :=
  fun _ => Except.error ()

/-- A file-system oracle in which every firmware image exists. -/
def allFilesPresent : String → Bool := fun _ => true

/-- A sample `tryBody`: the concrete flash attempt for a machine id that
has no entry in the firmware tables, on Linux, with every file present. -/
def missingMachineTryBody : String → Except Unit String :=
  fun _ => flashAttempt "no_such_machine" true "Linux" allFilesPresent

/-- A sample `tryBody` in which flashing the device on port `"pa"` raises
`FileNotFoundError` while every other device resolves to a valid image. -/
def mixedFlashTryBody : String → Except Unit String :=
  fun port => if port = "pa" then Except.error () else Except.ok "MarlinUltimaker2.hex"

/-! ## Claim theorems -/

/-- C1: reading the manager-level `progress` equals the arithmetic mean of
the tracked devices' progress values whenever at least one device is
tracked, but with zero tracked devices the code divides by
`len(self._usb_output_devices) = 0` and raises `ZeroDivisionError`
(embedded as `Except.error ()`) instead of returning the claimed guarded
sentinel 0. -/
theorem managerProgress_empty_raises_mean_otherwise :
    managerProgress [] = Except.error () ∧
    ∀ (l : List ℚ), l ≠ [] →
      managerProgress l = Except.ok (l.sum / (l.length : ℚ)) := by
  constructor
  · rfl
  · intro l hl
    have hlen : l.length ≠ 0 := fun h => hl (List.length_eq_zero.mp h)
    simp [managerProgress, hlen, foldl_add_eq_add_sum]

/-- Witness for C1: the empty-device case raises and a concrete two-device
fleet averages to (30 + 50) / 2. -/
theorem managerProgress_empty_raises_mean_otherwise_witness :
    managerProgress [] = Except.error () ∧
    managerProgress [30, 50] =
      Except.ok (([30, 50] : List ℚ).sum / ((([30, 50] : List ℚ).length : ℕ) : ℚ)) :=
  ⟨managerProgress_empty_raises_mean_otherwise.1,
   managerProgress_empty_raises_mean_otherwise.2 [30, 50] (by simp)⟩

/-- C6: firmware resolution for machine id "ultimaker_original" yields the
heated-bed-variant filename when the heated-bed setting is enabled and the
base-variant filename otherwise, with the `{baudrate}` placeholder
substituted by 115200 on Linux and 250000 on every other platform. -/
theorem ultimaker_original_firmware_resolution (machine_heated_bed : Bool)
    (platform_system : String) :
    getDefaultFirmwareName "ultimaker_original" machine_heated_bed platform_system =
      Except.ok ((if machine_heated_bed then "MarlinUltimaker-HBK-" else "MarlinUltimaker-") ++
        (if platform_system = "Linux" then "115200" else "250000") ++ ".hex") := by
  by_cases hps : platform_system = "Linux" <;> cases machine_heated_bed <;>
    simp only [getDefaultFirmwareName, hps, if_pos, if_neg, Bool.false_eq_true,
      and_false, and_true, if_false, if_true] <;> decide

/-- C7: the head-position update compares each axis independently, always
leaves the stored position equal to the new `(x, y, z)`, and emits exactly
one `headPositionChanged` notification when at least one axis differs and
none when all three coincide. -/
theorem updateHeadPosition_single_emission (s : HeadPosition) (x y z : ℚ) :
    (updateHeadPosition s x y z).1 = ⟨x, y, z⟩ ∧
    (updateHeadPosition s x y z).2 =
      (if s.head_x = x ∧ s.head_y = y ∧ s.head_z = z then 0 else 1) := by
  obtain ⟨sx, sy, sz⟩ := s
  by_cases h1 : sx = x <;> by_cases h2 : sy = y <;> by_cases h3 : sz = z <;>
    simp [updateHeadPosition, h1, h2, h3]

/-- C8: the absolute Z positioning entry point as written dispatches to the
Y-axis implementation hook: `setHeadZ(10, 3000)` invokes
`_setHeadY(10, 3000)` and not `_setHeadZ(10, 3000)` (line 251 of
`PrinterOutputDevice.py` reads `self._setHeadY(z, speed)`), while
`setHeadX` and `setHeadY` do invoke their own hooks. -/
theorem setHeadZ_invokes_y_hook :
    setHeadZ 10 3000 = HeadHookCall.hookSetHeadY 10 3000 ∧
    setHeadZ 10 3000 ≠ HeadHookCall.hookSetHeadZ 10 3000 ∧
    setHeadX 10 3000 = HeadHookCall.hookSetHeadX 10 3000 ∧
    setHeadY 20 3000 = HeadHookCall.hookSetHeadY 20 3000 := by
  decide

/-- C9: `setTargetHotendTemperature(index, temp)` with an index at or past
the extruder count invokes the implementation hook and then raises
`IndexError`, leaving the target array unchanged and emitting no
notification; with a negative index still within Python's `-len ≤ i < 0`
range it silently overwrites the element counted from the end and emits
the notification. -/
theorem setTargetHotendTemperature_bounds (temps : List ℤ) (index temperature : ℤ) :
    ((temps.length : ℤ) ≤ index →
      setTargetHotendTemperature temps index temperature =
        ⟨true, temps, 0, true⟩) ∧
    (-(temps.length : ℤ) ≤ index → index < 0 →
      setTargetHotendTemperature temps index temperature =
        ⟨true, temps.set ((temps.length : ℤ) + index).toNat temperature, 1, false⟩) := by
  constructor
  · intro h
    have hneg : ¬ index < 0 := by
      have := Int.ofNat_nonneg temps.length
      omega
    simp only [setTargetHotendTemperature, pyListSet, if_neg hneg]
    rw [if_neg (by omega : ¬ (0 ≤ index ∧ index < (temps.length : ℤ)))]
  · intro h1 h2
    simp only [setTargetHotendTemperature, pyListSet, if_pos h2]
    rw [if_pos (by omega :
      0 ≤ (temps.length : ℤ) + index ∧ (temps.length : ℤ) + index < (temps.length : ℤ))]

/-- Witness for C9: on a one-extruder device, index 1 is rejected after the
hook runs and changes nothing; on a two-element array, index -1 overwrites
the last element and emits. -/
theorem setTargetHotendTemperature_bounds_witness :
    ((([0] : List ℤ).length : ℤ) ≤ 1 ∧
      setTargetHotendTemperature [0] 1 99 = ⟨true, [0], 0, true⟩) ∧
    (-((([0, 5] : List ℤ).length : ℤ)) ≤ -1 ∧ (-1 : ℤ) < 0 ∧
      setTargetHotendTemperature [0, 5] (-1) 99 = ⟨true, [0, 99], 1, false⟩) := by
  refine ⟨⟨by decide, (setTargetHotendTemperature_bounds [0] 1 99).1 (by decide)⟩,
         ⟨by decide, by decide, ?_⟩⟩
  exact ((setTargetHotendTemperature_bounds [0, 5] (-1) 99).2
    (by decide) (by decide)).trans (by decide)

/-- C10: `updateFirmwareBySerial(port)` for a port with no tracked device
returns `False` with an empty event trace — the firmware interface is not
spawned, and the result does not depend on the flash attempt at all (the
`tryBody` argument is universally quantified), so no firmware resolution
is consulted and no manager state is touched. -/
theorem updateFirmwareBySerial_unknown_port (device_ports : List String)
    (tryBody : String → Except Unit String) (serial_port : String)
    (h : serial_port ∉ device_ports) :
    updateFirmwareBySerial device_ports tryBody serial_port = (false, []) := by
  simp [updateFirmwareBySerial, h]

/-- Witness for C10: a port absent from a one-device fleet is rejected with
no events. -/
theorem updateFirmwareBySerial_unknown_port_witness :
    "/dev/ttyACM0" ∉ ["/dev/ttyUSB0"] ∧
    updateFirmwareBySerial ["/dev/ttyUSB0"] alwaysMissingFirmware "/dev/ttyACM0" =
      (false, []) :=
  ⟨by decide,
   updateFirmwareBySerial_unknown_port ["/dev/ttyUSB0"] alwaysMissingFirmware
     "/dev/ttyACM0" (by decide)⟩

/-- Flat-mapping a singleton-producing function is mapping. -/
lemma flatMap_singleton_eq_map {α β : Type} (f : α → β) (l : List α) :
    l.flatMap (fun a => [f a]) = l.map f := by
  induction l with
  | nil => rfl
  | cons a t ih => simp [ih]

/-- A machine id without a `machine_without_extras` entry makes
`_getDefaultFirmwareName` raise `FileNotFoundError`. -/
lemma getDefaultFirmwareName_missing (machine_type : String)
    (machine_heated_bed : Bool) (platform_system : String)
    (h : machine_without_extras.lookup machine_type = none) :
    getDefaultFirmwareName machine_type machine_heated_bed platform_system =
      Except.error () := by
  simp [getDefaultFirmwareName, h]

/-- A flash attempt for a machine id without a base table entry raises. -/
lemma flashAttempt_missing_entry (machine_type : String)
    (machine_heated_bed : Bool) (platform_system : String)
    (firmwareFileExists : String → Bool)
    (h : machine_without_extras.lookup machine_type = none) :
    flashAttempt machine_type machine_heated_bed platform_system firmwareFileExists =
      Except.error () := by
  simp [flashAttempt,
    getDefaultFirmwareName_missing machine_type machine_heated_bed platform_system h]

/-- C2 counterexample: with two tracked devices and a machine id that has
no base firmware table entry, `updateAllFirmware` spawns the interface and
then handles the raised `FileNotFoundError` separately for each device
(`setProgress(100, 100)`, continue) — the trace shows per-device handling
of the whole batch and contains no user-visible `Message`, refuting that
the missing-base-entry fault is fatal at batch scope and surfaced to the
user. -/
theorem updateAllFirmware_missing_machine_counterexample :
    updateAllFirmware ["p1", "p2"] missingMachineTryBody =
      [FirmwareEvent.spawnInterface "",
       FirmwareEvent.setProgressTerminal "p1",
       FirmwareEvent.setProgressTerminal "p2"] ∧
    (updateAllFirmware ["p1", "p2"] missingMachineTryBody).countP
      (fun e => match e with | FirmwareEvent.message _ => true | _ => false) = 0 := by
  decide

/-- C2 amended: when the active machine id has no entry in the base
firmware table, every device's flash attempt raises `FileNotFoundError`,
which `updateAllFirmware` catches per device: each tracked device's
progress is set to the terminal value and the batch runs to completion
(so no device is flashed), and no user-visible `Message` is produced —
the fault is logged per device, not fatal at batch scope. -/
theorem updateAllFirmware_missing_machine_per_device (device_ports : List String)
    (hne : device_ports ≠ []) (machine_type : String) (machine_heated_bed : Bool)
    (platform_system : String) (firmwareFileExists : String → Bool)
    (h : machine_without_extras.lookup machine_type = none) :
    updateAllFirmware device_ports
        (fun _ => flashAttempt machine_type machine_heated_bed platform_system
          firmwareFileExists) =
      FirmwareEvent.spawnInterface "" ::
        device_ports.map FirmwareEvent.setProgressTerminal ∧
    ∀ t, FirmwareEvent.message t ∉ updateAllFirmware device_ports
        (fun _ => flashAttempt machine_type machine_heated_bed platform_system
          firmwareFileExists) := by
  have hflash := flashAttempt_missing_entry machine_type machine_heated_bed
    platform_system firmwareFileExists h
  have hempty : device_ports.isEmpty = false := by
    cases device_ports with
    | nil => exact absurd rfl hne
    | cons a l => rfl
  have htrace : updateAllFirmware device_ports
      (fun _ => flashAttempt machine_type machine_heated_bed platform_system
        firmwareFileExists) =
      FirmwareEvent.spawnInterface "" ::
        device_ports.map FirmwareEvent.setProgressTerminal := by
    simp only [updateAllFirmware, hempty, Bool.false_eq_true, if_false, hflash]
    rw [flatMap_singleton_eq_map]
  refine ⟨htrace, ?_⟩
  intro t hmem
  rw [htrace] at hmem
  rcases List.mem_cons.mp hmem with hsp | hmap
  · exact FirmwareEvent.noConfusion hsp
  · rcases List.mem_map.mp hmap with ⟨p, _, hp⟩
    exact FirmwareEvent.noConfusion hp

/-- Witness for C2's amended theorem: two devices, an unknown machine id,
Linux, every file present. -/
theorem updateAllFirmware_missing_machine_per_device_witness :
    (["p1", "p2"] ≠ ([] : List String)) ∧
    machine_without_extras.lookup "no_such_machine" = none ∧
    (updateAllFirmware ["p1", "p2"]
        (fun _ => flashAttempt "no_such_machine" true "Linux" allFilesPresent) =
      FirmwareEvent.spawnInterface "" ::
        (["p1", "p2"].map FirmwareEvent.setProgressTerminal)) ∧
    FirmwareEvent.message "Cannot update firmware, there were no connected printers found."
      ∉ updateAllFirmware ["p1", "p2"]
        (fun _ => flashAttempt "no_such_machine" true "Linux" allFilesPresent) :=
  ⟨by decide, by decide,
   (updateAllFirmware_missing_machine_per_device ["p1", "p2"] (by decide)
     "no_such_machine" true "Linux" allFilesPresent (by decide)).1,
   (updateAllFirmware_missing_machine_per_device ["p1", "p2"] (by decide)
     "no_such_machine" true "Linux" allFilesPresent (by decide)).2
     "Cannot update firmware, there were no connected printers found."⟩

/-- C4: a device whose flash attempt raises `FileNotFoundError` (for
example because the resolved image file is absent at flash time) has its
progress set to the terminal failure value, and the batch continues: every
device whose attempt succeeds still reaches `updateFirmware`, regardless
of other devices' failures — partial-failure semantics, never abort-all. -/
theorem updateAllFirmware_per_device_failure (device_ports : List String)
    (tryBody : String → Except Unit String) (d : String)
    (hd : d ∈ device_ports) (hf : tryBody d = Except.error ()) :
    FirmwareEvent.setProgressTerminal d ∈ updateAllFirmware device_ports tryBody ∧
    ∀ d' ∈ device_ports, ∀ path, tryBody d' = Except.ok path →
      FirmwareEvent.updateFirmware d' path ∈ updateAllFirmware device_ports tryBody := by
  have hempty : device_ports.isEmpty = false := by
    cases device_ports with
    | nil => cases hd
    | cons a l => rfl
  have hform : updateAllFirmware device_ports tryBody =
      FirmwareEvent.spawnInterface "" ::
        device_ports.flatMap (fun port =>
          match tryBody port with
          | Except.ok path => [FirmwareEvent.updateFirmware port path]
          | Except.error _ => [FirmwareEvent.setProgressTerminal port]) := by
    simp only [updateAllFirmware, hempty, Bool.false_eq_true, if_false]
  rw [hform]
  constructor
  · exact List.mem_cons_of_mem _
      (List.mem_flatMap.mpr ⟨d, hd, by rw [hf]; exact List.mem_singleton.mpr rfl⟩)
  · intro d' hd' path hpath
    exact List.mem_cons_of_mem _
      (List.mem_flatMap.mpr ⟨d', hd', by rw [hpath]; exact List.mem_singleton.mpr rfl⟩)

/-- Witness for C4: device "pa" fails at flash time, device "pb" succeeds;
the trace marks "pa" failed and still flashes "pb". -/
theorem updateAllFirmware_per_device_failure_witness :
    ("pa" ∈ ["pa", "pb"]) ∧ mixedFlashTryBody "pa" = Except.error () ∧
    FirmwareEvent.setProgressTerminal "pa" ∈
      updateAllFirmware ["pa", "pb"] mixedFlashTryBody ∧
    FirmwareEvent.updateFirmware "pb" "MarlinUltimaker2.hex" ∈
      updateAllFirmware ["pa", "pb"] mixedFlashTryBody :=
  ⟨by decide, by decide,
   (updateAllFirmware_per_device_failure ["pa", "pb"] mixedFlashTryBody "pa"
     (by decide) (by decide)).1,
   (updateAllFirmware_per_device_failure ["pa", "pb"] mixedFlashTryBody "pa"
     (by decide) (by decide)).2 "pb" (by decide) "MarlinUltimaker2.hex" (by decide)⟩

/-- Looking a key up after `setConnectionState` rewrote the value stored
under `port`: the lookup at `port` has its value replaced, every other
lookup is untouched. -/
lemma lookup_update_value (devs : ConnDevices) (port q : String)
    (st : ConnectionState) :
    lookupState (devs.map (fun d => if d.1 = port then (d.1, st) else d)) q =
      if q = port then (lookupState devs q).map (fun _ => st)
      else lookupState devs q := by
  induction devs with
  | nil => by_cases hq : q = port <;> simp [lookupState, hq]
  | cons d rest ih =>
    obtain ⟨k, v⟩ := d
    by_cases hk : k = port
    · subst hk
      by_cases hkq : k = q
      · subst hkq
        simp [lookupState]
      · have hq : ¬ q = k := fun h => hkq h.symm
        simp [lookupState, hkq, hq, ih]
    · by_cases hkq : k = q
      · subst hkq
        have hq : ¬ k = port := hk
        simp [lookupState, hq]
      · simp [lookupState, hk, hkq, ih]

/-- The registry calls of one delivered connection-state report: exactly
one call when the port is tracked (publish for `connected`, unpublish
otherwise), none on the silently-ignored `KeyError`. -/
lemma deliverConnectionReport_actions (devs : ConnDevices) (port : String)
    (st : ConnectionState) :
    (deliverConnectionReport devs port st).2 =
      if (lookupState devs port).isSome then
        [if st = ConnectionState.connected then RegistryAction.publish port
         else RegistryAction.unpublish port]
      else [] := by
  simp only [deliverConnectionReport, lookup_update_value, if_pos rfl]
  cases h : lookupState devs port with
  | none => simp
  | some s0 => by_cases hst : st = ConnectionState.connected <;> simp [hst]

/-- Delivering a report never changes which ports are tracked. -/
lemma deliverConnectionReport_keys (devs : ConnDevices) (port : String)
    (st : ConnectionState) (q : String) :
    (lookupState (deliverConnectionReport devs port st).1 q).isSome =
      (lookupState devs q).isSome := by
  have hfst : (deliverConnectionReport devs port st).1 =
      devs.map (fun d => if d.1 = port then (d.1, st) else d) := by
    simp only [deliverConnectionReport]
    cases lookupState (devs.map (fun d => if d.1 = port then (d.1, st) else d)) port with
    | none => rfl
    | some s0 => by_cases hst : s0 = ConnectionState.connected <;> simp [hst]
  rw [hfst, lookup_update_value]
  by_cases hq : q = port <;> simp [hq]

/-- C3 counterexample: a device already tracked in state `closed` that
reports `connected` twice in a row is published to the global registry
twice for the same connection — `setConnectionState` stores and emits
unconditionally and `_onConnectionStateChanged` calls `addOutputDevice`
on every report, so repeated identical state reports do cause a double
publish, refuting exactly-once publication per connection. -/
theorem repeated_connected_reports_double_publish :
    deliverConnectionReports [("p", ConnectionState.closed)]
        [("p", ConnectionState.connected), ("p", ConnectionState.connected)] =
      ([("p", ConnectionState.connected)],
       [RegistryAction.publish "p", RegistryAction.publish "p"]) ∧
    (deliverConnectionReports [("p", ConnectionState.closed)]
        [("p", ConnectionState.connected), ("p", ConnectionState.connected)]).2.count
      (RegistryAction.publish "p") = 2 := by
  decide

/-- C3 amended: for every sequence of connection-state reports, every
report whose port is tracked triggers exactly one registry call — a
publish when the reported state is `connected`, an unpublish otherwise —
and reports for untracked ports are silently ignored; in particular
repeated identical reports repeat the registry call rather than being
deduplicated, so exactly-once publication per connection does not hold at
this layer. -/
theorem connection_reports_registry_calls (devs : ConnDevices)
    (reports : List (String × ConnectionState)) :
    (deliverConnectionReports devs reports).2 =
      reports.filterMap (fun r =>
        if (lookupState devs r.1).isSome then
          some (if r.2 = ConnectionState.connected then RegistryAction.publish r.1
                else RegistryAction.unpublish r.1)
        else none) := by
  induction reports generalizing devs with
  | nil => rfl
  | cons r rest ih =>
    simp only [deliverConnectionReports, List.filterMap_cons]
    rw [deliverConnectionReport_actions, ih]
    have hfm : rest.filterMap (fun r' =>
        if (lookupState ((deliverConnectionReport devs r.1 r.2).1) r'.1).isSome then
          some (if r'.2 = ConnectionState.connected then RegistryAction.publish r'.1
                else RegistryAction.unpublish r'.1)
        else none) =
        rest.filterMap (fun r' =>
        if ((lookupState devs r'.1).isSome) then
          some (if r'.2 = ConnectionState.connected then RegistryAction.publish r'.1
                else RegistryAction.unpublish r'.1)
        else none) := by
      apply List.filterMap_congr
      intro a _
      rw [deliverConnectionReport_keys]
    rw [hfm]
    by_cases h : (lookupState devs r.1).isSome <;> simp [h]

/-- Membership after a dict-key insertion. -/
lemma mem_dictInsertKey (keys : List String) (k x : String) :
    x ∈ dictInsertKey keys k ↔ x ∈ keys ∨ x = k := by
  by_cases h : k ∈ keys
  · simp only [dictInsertKey, if_pos h]
    exact ⟨Or.inl, fun hx => hx.elim id (fun he => he ▸ h)⟩
  · simp [dictInsertKey, if_neg h]

/-- Dict-key insertion preserves key uniqueness. -/
lemma nodup_dictInsertKey (keys : List String) (k : String)
    (h : keys.Nodup) : (dictInsertKey keys k).Nodup := by
  by_cases hk : k ∈ keys
  · simpa [dictInsertKey, hk] using h
  · simp [dictInsertKey, hk, List.nodup_append, h]

/-- Membership after the add loop of `_addRemovePorts`: the devices after
the loop are the old devices plus one device per scanned port that was not
in the old `_serial_port_list`. -/
lemma mem_addPorts_foldl (old_list ports acc : List String) (x : String) :
    x ∈ ports.foldl
        (fun devs p => if p ∈ old_list then devs else dictInsertKey devs p) acc ↔
      x ∈ acc ∨ (x ∈ ports ∧ x ∉ old_list) := by
  induction ports generalizing acc with
  | nil => simp
  | cons p rest ih =>
    simp only [List.foldl_cons]
    by_cases hp : p ∈ old_list
    · rw [if_pos hp, ih]
      simp only [List.mem_cons]
      constructor
      · rintro (h | ⟨hr, hn⟩)
        · exact Or.inl h
        · exact Or.inr ⟨Or.inr hr, hn⟩
      · rintro (h | ⟨hpr, hn⟩)
        · exact Or.inl h
        · rcases hpr with he | hr
          · exact absurd (he ▸ hp) hn
          · exact Or.inr ⟨hr, hn⟩
    · rw [if_neg hp, ih]
      simp only [mem_dictInsertKey, List.mem_cons, or_assoc]
      constructor
      · rintro (h | he | ⟨hr, hn⟩)
        · exact Or.inl h
        · exact Or.inr ⟨Or.inl he, he ▸ hp⟩
        · exact Or.inr ⟨Or.inr hr, hn⟩
      · rintro (h | ⟨hpr, hn⟩)
        · exact Or.inl h
        · rcases hpr with he | hr
          · exact Or.inr (Or.inl he)
          · exact Or.inr (Or.inr ⟨hr, hn⟩)

/-- The add loop of `_addRemovePorts` preserves key uniqueness. -/
lemma nodup_addPorts_foldl (old_list ports acc : List String)
    (h : acc.Nodup) :
    (ports.foldl
      (fun devs p => if p ∈ old_list then devs else dictInsertKey devs p) acc).Nodup := by
  induction ports generalizing acc with
  | nil => exact h
  | cons p rest ih =>
    simp only [List.foldl_cons]
    by_cases hp : p ∈ old_list
    · rw [if_pos hp]; exact ih acc h
    · rw [if_neg hp]; exact ih _ (nodup_dictInsertKey acc p h)

/-- One `_addRemovePorts` cycle, starting from a state whose device keys
coincide with its known port list: afterwards the device keys are exactly
the scanned ports, still without duplicates, and the known port list is
the scan. -/
lemma addRemovePorts_cycle (s : ManagerPortState) (scan : List String)
    (hset : ∀ x, x ∈ s.device_ports ↔ x ∈ s.serial_port_list)
    (hnd : s.device_ports.Nodup) :
    (∀ x, x ∈ (addRemovePorts s scan).device_ports ↔ x ∈ scan) ∧
    (addRemovePorts s scan).device_ports.Nodup ∧
    (addRemovePorts s scan).serial_port_list = scan := by
  refine ⟨?_, ?_, rfl⟩
  · intro x
    simp only [addRemovePorts, List.mem_filter, mem_addPorts_foldl,
      decide_eq_true_eq, hset x]
    constructor
    · rintro ⟨_, hx⟩
      exact hx
    · intro hx
      by_cases hold : x ∈ s.serial_port_list
      · exact ⟨Or.inl hold, hx⟩
      · exact ⟨Or.inr ⟨hx, hold⟩, hx⟩
  · exact List.Nodup.filter _
      (nodup_addPorts_foldl s.serial_port_list scan s.device_ports hnd)

/-- The manager state after a whole sequence of scan cycles, starting from
the initial state. -/
def runScanCycles (scans : List (List String)) : ManagerPortState :=
  scans.foldl addRemovePorts initialManagerPortState

/-- The key-set/port-list coincidence and key uniqueness hold after any
sequence of scan cycles. -/
lemma runScanCycles_invariant (scans : List (List String))
    (s : ManagerPortState)
    (hset : ∀ x, x ∈ s.device_ports ↔ x ∈ s.serial_port_list)
    (hnd : s.device_ports.Nodup) :
    (∀ x, x ∈ (scans.foldl addRemovePorts s).device_ports ↔
        x ∈ (scans.foldl addRemovePorts s).serial_port_list) ∧
    (scans.foldl addRemovePorts s).device_ports.Nodup := by
  induction scans generalizing s with
  | nil => exact ⟨hset, hnd⟩
  | cons scan rest ih =>
    simp only [List.foldl_cons]
    obtain ⟨h1, h2, h3⟩ := addRemovePorts_cycle s scan hset hnd
    exact ih (addRemovePorts s scan) (fun x => h3 ▸ h1 x) h2

/-- C5: after every cycle of any sequence of scan results, the key set of
the port-to-device mapping is exactly the port set of the most recent
scan — with no duplicate keys and the known port list replaced by the
scan — so in particular the device keys are a subset of the last-known
port set. -/
theorem scan_cycles_tracked_devices (scans : List (List String))
    (scan : List String) :
    (runScanCycles (scans ++ [scan])).device_ports.toFinset = scan.toFinset ∧
    (runScanCycles (scans ++ [scan])).device_ports.Nodup ∧
    (runScanCycles (scans ++ [scan])).serial_port_list = scan := by
  have hinv := runScanCycles_invariant scans initialManagerPortState
    (fun x => by simp [initialManagerPortState]) (by simp [initialManagerPortState])
  have hstep := addRemovePorts_cycle (scans.foldl addRemovePorts initialManagerPortState)
    scan hinv.1 hinv.2
  have hfold : runScanCycles (scans ++ [scan]) =
      addRemovePorts (scans.foldl addRemovePorts initialManagerPortState) scan := by
    simp [runScanCycles, List.foldl_append]
  refine ⟨?_, ?_, ?_⟩
  · rw [hfold]
    ext x
    simp only [List.mem_toFinset]
    exact hstep.1 x
  · rw [hfold]; exact hstep.2.1
  · rw [hfold]; exact hstep.2.2

end Cura
